import Mathlib

/- Shallow embedding of the `throbberous` library (src/src/lib.rs): a terminal
progress bar and spinner built on a mutex-guarded state record, a coalescing
notify signal, a timer-driven animation task and a signal-driven redraw task.

Machine integers (`u64`, `usize`, `i32`, `i8`) are modelled as `Nat`/`Int`
with explicit reduction modulo `2^32` / `2^64` where Rust's release-mode
wrapping semantics matter.  The `f64` rendering arithmetic of
`Bar::draw_bar` is modelled bit-exactly: doubles are carried as their exact
rational values on numerator/denominator pairs of naturals, and every
conversion, division and multiplication performs IEEE-754 binary64 round to
nearest, ties to even (the `fl` function below); `round()` is half away
from zero.  Only the threshold comparisons of the canned-message logic use
exact rational comparison instead (see `canned_message` for the caveat;
no theorem below evaluates the message where that could matter).  Each
background-task loop body is
embedded as one step function returning the new state, the terminal commands
emitted, and whether the loop exits; a Rust panic (`% 0`, out-of-bounds
index) is modelled by an `Option` result of `none`. -/

/-- The subset of `crossterm::style::Color` the library mentions. -/
inductive TermColor
  | green
  | yellow
  | magenta
  | cyan
  | blue
  | red
  | white
  | darkGrey
  deriving DecidableEq

/-- One terminal command issued through `crossterm::execute!` or `println!`. -/
inductive TermCmd
  | moveToColumn0
  | clearLine
  | setForegroundColor (c : TermColor)
  | print (s : String)
  | resetColor
  | newline
  deriving DecidableEq

/-- `BarConfig { colors, color_cycle_delay, width }`. -/
structure BarConfig where
  colors : Option (List TermColor)
  color_cycle_delay : ℕ
  width : ℕ
  deriving DecidableEq

/-- `BarConfig::default()`. -/
def BarConfig.default : BarConfig :=
  ⟨some [.green, .yellow, .magenta, .cyan], 600, 40⟩

/-- `BarConfig::no_colors()`. -/
def BarConfig.no_colors : BarConfig := ⟨none, 600, 40⟩

/-- `BarMode`: `Determinate { current: u64, total: u64 }` or
`Indeterminate { position: usize, direction: i8 }`. -/
inductive BarMode
  | determinate (current total : ℕ)
  | indeterminate (position : ℕ) (direction : ℤ)
  deriving DecidableEq

/-- `BarState { mode, finished, message, color_index }`. -/
structure BarState where
  mode : BarMode
  finished : Bool
  message : String
  color_index : ℕ
  deriving DecidableEq

/-- The `current` field of a determinate state (0 in indeterminate mode). -/
def BarState.current (s : BarState) : ℕ :=
  match s.mode with
  | .determinate c _ => c
  | .indeterminate _ _ => 0

/-- The `total` field of a determinate state (0 in indeterminate mode). -/
def BarState.total (s : BarState) : ℕ :=
  match s.mode with
  | .determinate _ t => t
  | .indeterminate _ _ => 0

/-- The state installed by `Bar::with_config(total, config)` (also `new`,
`new_plain`): `Determinate { current: 0, total }`, not finished, empty
message, `color_index = 0`. -/
def Bar.with_config_state (total : ℕ) : BarState :=
  ⟨.determinate 0 total, false, "", 0⟩

/-- The state installed by `Bar::indeterminate_with_config(message, config)`:
`Indeterminate { position: 0, direction: 1 }`. -/
def Bar.indeterminate_state (message : String) : BarState :=
  ⟨.indeterminate 0 1, false, message, 0⟩

/-- The canned status message selected inside `inc` / `set_position`:
`match progress { p if p >= 1.0 => "Complete!", p if p >= 0.75 => ..., ... }`
with `progress = *current as f64 / *total as f64` computed on the already
clamped `current`.  Modelled with exact rational comparisons
(`4*c ≥ 3*t ↔ c/t ≥ 3/4` for `t > 0`).  For `t = 0` the Rust quotient is
`0.0/0.0 = NaN`, every `>=` guard fails, and the wildcard arm
`"Working..."` is chosen; the `t ≠ 0` conjuncts reproduce that.  Caveat:
at inputs where the `f64` quotient ties against a threshold (e.g.
`c = 3*2^52 - 1`, `t = 2^54`, whose quotient rounds up to exactly 0.75)
the program can select the adjacent bucket; no theorem below evaluates the
message at such an input. -/
def canned_message (c t : ℕ) : String :=
  if t ≠ 0 ∧ t ≤ c then "Complete!"
  else if t ≠ 0 ∧ 3 * t ≤ 4 * c then "Almost there..."
  else if t ≠ 0 ∧ t ≤ 2 * c then "Halfway done"
  else if t ≠ 0 ∧ t ≤ 4 * c then "Quarter done"
  else "Working..."

/-- `Bar::inc(delta)`: no-op when finished or indeterminate; otherwise
`*current = (*current + delta).min(*total)` (the `+` is `u64` addition,
wrapping modulo `2^64` in release builds), then — only when the message is
empty — install the canned message for the new progress, and set
`finished` when `current == total`.  The unconditional `notify_one` that
follows carries no state. -/
def Bar.inc (s : BarState) (delta : ℕ) : BarState :=
  if s.finished then s
  else
    match s.mode with
    | .determinate c t =>
        let c' := min ((c + delta) % 2 ^ 64) t
        { mode := .determinate c' t
          finished := decide (c' = t)
          message := if s.message = "" then canned_message c' t else s.message
          color_index := s.color_index }
    | .indeterminate _ _ => s

/-- `Bar::set_position(pos)`: same shape as `inc` with
`*current = pos.min(*total)`. -/
def Bar.set_position (s : BarState) (pos : ℕ) : BarState :=
  if s.finished then s
  else
    match s.mode with
    | .determinate _ t =>
        let c' := min pos t
        { mode := .determinate c' t
          finished := decide (c' = t)
          message := if s.message = "" then canned_message c' t else s.message
          color_index := s.color_index }
    | .indeterminate _ _ => s

/-- `Bar::set_message(msg)`. -/
def Bar.set_message (s : BarState) (msg : String) : BarState :=
  { s with message := msg }

/-- `Bar::finish()`: force `current = total` in determinate mode, set
`finished = true` unconditionally. -/
def Bar.finish (s : BarState) : BarState :=
  match s.mode with
  | .determinate _ t => { s with mode := .determinate t t, finished := true }
  | .indeterminate _ _ => { s with finished := true }

/-- `Bar::finish_with_message(msg)`. -/
def Bar.finish_with_message (s : BarState) (msg : String) : BarState :=
  { Bar.finish s with message := msg }

/-- A sequence of `inc` calls, applied left to right. -/
def Bar.incs (s : BarState) (deltas : List ℕ) : BarState :=
  deltas.foldl Bar.inc s

/-- `round((num/den) * m)` computed exactly over the rationals: for the
nonnegative values here, rounding half away from zero is
`⌊(num/den) * m + 1/2⌋ = (2*num*m + den) / (2*den)` with flooring natural
division; requires `den > 0` (every use below supplies a positive
denominator).  This is the *exact-real-arithmetic* reading of the
specification's rendering rule; the program itself computes in `f64`, which
is modelled bit-exactly by `fl` below. -/
def round_mul (num den m : ℕ) : ℕ := (2 * num * m + den) / (2 * den)

/-- Fuel-bounded binary logarithm (`⌊log₂ n⌋` for `n ≥ 1`), structural in
the fuel so that kernel evaluation works; 512 bits of fuel covers every
magnitude reaching it below. -/
def log2fuel : ℕ → ℕ → ℕ
  | 0, _ => 0
  | fuel + 1, n => if n ≤ 1 then 0 else log2fuel fuel (n / 2) + 1

/-- `⌊log₂ n⌋` for `1 ≤ n < 2^512`. -/
def nat_log2 (n : ℕ) : ℕ := log2fuel 512 n

/-- IEEE-754 binary64 rounding (round to nearest, ties to even) of the
exact nonnegative rational `num/den` (`den > 0`), returned as its exact
rational value in the form `(a, b)`, meaning `a/b` with `b` a power of two.
The exponent `E = ⌊log₂(num/den)⌋` scales the value into `[2^52, 2^53)`;
the scaled value is rounded to an integer significand, ties to the even
candidate.  Exponent-range effects (overflow at `2^1024`, subnormals below
`2^-1022`) are not modelled: every value reaching this function lies far
inside the normal range (`u64` magnitudes and progress ratios). -/
def fl (num den : ℕ) : ℕ × ℕ :=
  if num = 0 then (0, 1)
  else
    let e0 : ℤ := (nat_log2 num : ℤ) - (nat_log2 den : ℤ)
    let E : ℤ :=
      if den * 2 ^ (max e0 0).toNat ≤ num * 2 ^ (max (-e0) 0).toNat then e0
      else e0 - 1
    let k : ℤ := 52 - E
    let A := num * 2 ^ (max k 0).toNat
    let B := den * 2 ^ (max (-k) 0).toNat
    let q := A / B
    let r := A % B
    let m :=
      if B < 2 * r then q + 1
      else if 2 * r < B then q
      else if q % 2 = 0 then q else q + 1
    if 0 ≤ k then (m, 2 ^ k.toNat) else (m * 2 ^ (-k).toNat, 1)

/-- `n as f64` (`u64`/`usize` to double; rounds when `n > 2^53`). -/
def f64_of_nat (n : ℕ) : ℕ × ℕ := fl n 1

/-- `f64` division: round-to-nearest-even of the exact quotient. -/
def f64_div (x y : ℕ × ℕ) : ℕ × ℕ := fl (x.1 * y.2) (x.2 * y.1)

/-- `f64` multiplication: round-to-nearest-even of the exact product. -/
def f64_mul (x y : ℕ × ℕ) : ℕ × ℕ := fl (x.1 * y.1) (x.2 * y.2)

/-- `x.min(1.0)` on a nonnegative double; `f64` comparison is exact on the
represented rational values. -/
def f64_min1 (x : ℕ × ℕ) : ℕ × ℕ := if x.1 ≤ x.2 then x else (1, 1)

/-- `x.round()` (half away from zero, i.e. half up for the nonnegative
values here) followed by the exact integer read-off — `as usize` for the
filled length, `{:.0}` display for the percent; both are exact on the
integer-valued rounded double. -/
def f64_round_nat (x : ℕ × ℕ) : ℕ := (2 * x.1 + x.2) / (2 * x.2)

/-- The `progress` value of `Bar::draw_bar`:
`if total == 0 { 1.0 } else { (current as f64 / total as f64).min(1.0) }`,
with both conversions and the division rounded as binary64. -/
def Bar.progress_f64 (current total : ℕ) : ℕ × ℕ :=
  if total = 0 then (1, 1)
  else f64_min1 (f64_div (f64_of_nat current) (f64_of_nat total))

/-- `Bar::draw_bar`'s `(progress * config.width as f64).round() as usize`. -/
def Bar.filled_len_f64 (current total width : ℕ) : ℕ :=
  f64_round_nat (f64_mul (Bar.progress_f64 current total) (f64_of_nat width))

/-- `Bar::draw_bar`'s `(progress * 100.0).round()`, as the integer `{:.0}`
prints. -/
def Bar.percent_f64 (current total : ℕ) : ℕ :=
  f64_round_nat (f64_mul (Bar.progress_f64 current total) (f64_of_nat 100))

/-- The `progress` ratio as the specification's rendering rule states it:
`current/total`, with `total == 0` treated as `progress = 1.0` (and no
clamping to 1). -/
def spec_progress_frac (current total : ℕ) : ℕ × ℕ :=
  if total = 0 then (1, 1) else (current, total)

/-- The determinate display string as the specification's rendering rule
states it: `[<filled '='><rest ' '>] <percent>% <message>` with
`filled = round(progress × width)` and `percent = round(progress × 100)`.
This is the refinement reference to compare with `Bar.bar_display`. -/
def spec_det_display (width c t : ℕ) (msg : String) : String :=
  let progress := spec_progress_frac c t
  let filled_len := round_mul progress.1 progress.2 width
  let percent := round_mul progress.1 progress.2 100
  "[" ++ String.mk (List.replicate filled_len '=')
      ++ String.mk (List.replicate (width - filled_len) ' ')
      ++ "] " ++ toString percent ++ "% " ++ msg

/-- The display string built by `Bar::draw_bar`.  Determinate:
`progress = (current/total).min(1.0)` with the explicit `total == 0 → 1.0`
guard, `filled_len = (progress * width as f64).round() as usize`,
`percent = (progress * 100.0).round()` printed by `{:.0}` — all in
binary64 arithmetic via the `f64` model above.  (The pad width
`config.width - filled_len`, a `usize` subtraction, is `Nat` subtraction
here; it cannot underflow for any terminal-sized width, since
`progress ≤ 1.0` keeps `filled_len ≤ width` whenever `width < 2^53`.)
Indeterminate: a `width`-wide track whose cells `i` with
`position ≤ i ≤ min(position + bounce_width, width - 1)` hold `'='`
(the source's extra `i < width` guard is subsumed by ranging over the
track). -/
def Bar.bar_display (config : BarConfig) (s : BarState) : String :=
  match s.mode with
  | .determinate current total =>
      let filled_len := Bar.filled_len_f64 current total config.width
      let percent := Bar.percent_f64 current total
      "[" ++ String.mk (List.replicate filled_len '=')
          ++ String.mk (List.replicate (config.width - filled_len) ' ')
          ++ "] " ++ toString percent ++ "% " ++ s.message
  | .indeterminate position _ =>
      let bounce_width := config.width / 4
      let bar := (List.range config.width).map fun i =>
        if position ≤ i ∧ i ≤ min (position + bounce_width) (config.width - 1)
        then '=' else ' '
      "[" ++ String.mk bar ++ "] " ++ s.message

/-- The command sequence `Bar::draw_bar` sends to the terminal: when colors
are configured, the palette entry at `color_index` (`White` when the index is
out of range) wraps the text. -/
def Bar.draw_bar (config : BarConfig) (s : BarState) : List TermCmd :=
  let display := Bar.bar_display config s
  match config.colors with
  | some colors =>
      [.moveToColumn0, .clearLine,
       .setForegroundColor (colors.getD s.color_index .white),
       .print display, .resetColor]
  | none => [.moveToColumn0, .clearLine, .print display]

/-- One wake of the Bar redraw task (`Bar::spawn_draw_task` loop body after
`notify.notified()` returns): if `finished`, draw one last frame, print a
newline and break; else draw and advance `color_index` modulo the palette
length when a non-empty palette is configured.  Result:
`(state, commands, loop exited)`. -/
def Bar.draw_wake (config : BarConfig) (s : BarState) :
    BarState × List TermCmd × Bool :=
  if s.finished then (s, Bar.draw_bar config s ++ [.newline], true)
  else
    let s' :=
      match config.colors with
      | some colors =>
          if colors.isEmpty then s
          else { s with color_index := (s.color_index + 1) % colors.length }
      | none => s
    (s', Bar.draw_bar config s, false)

/-- `p as i32` for a `usize` value `p`: truncate to 32 bits, reinterpret as
two's complement. -/
def i32_of_usize (p : ℕ) : ℤ :=
  if p % 2 ^ 32 < 2 ^ 31 then ((p % 2 ^ 32 : ℕ) : ℤ)
  else ((p % 2 ^ 32 : ℕ) : ℤ) - 2 ^ 32

/-- Wrapping `i32` arithmetic (release-mode overflow semantics). -/
def i32_wrap (x : ℤ) : ℤ := (x + 2 ^ 31) % 2 ^ 32 - 2 ^ 31

/-- `x as usize` for an `i32` value `x`: sign-extend and reinterpret,
i.e. reduce modulo `2^64`. -/
def usize_of_i32 (x : ℤ) : ℕ := (x % 2 ^ 64).toNat

/-- One position/direction update of `Bar::spawn_indeterminate_task` (the
body taken when the bar is unfinished and indeterminate):
`*position = (*position as i32 + *direction as i32) as usize`, then bounce:
if `position >= width - bounce_width` set `direction = -1` and clamp, else
if `position == 0` set `direction = 1`; `bounce_width = width / 4`. -/
def Bar.bounce_tick (width p : ℕ) (d : ℤ) : ℕ × ℤ :=
  let bounce_width := width / 4
  let p1 := usize_of_i32 (i32_wrap (i32_of_usize p + d))
  if width - bounce_width ≤ p1 then (width - bounce_width, -1)
  else if p1 = 0 then (0, 1)
  else (p1, d)

/-- The `(position, direction)` pairs reachable by the indeterminate
animation task from the initial `{ position: 0, direction: 1 }`. -/
inductive Bar.BounceReachable (width : ℕ) : ℕ × ℤ → Prop
  | init : Bar.BounceReachable width (0, 1)
  | step (p : ℕ) (d : ℤ) : Bar.BounceReachable width (p, d) →
      Bar.BounceReachable width (Bar.bounce_tick width p d)

/-- `ThrobberConfig { frames, colors, frame_delay }`. -/
structure ThrobberConfig where
  frames : List String
  colors : Option (List TermColor)
  frame_delay : ℕ
  deriving DecidableEq

/-- `ThrobberConfig::default()`. -/
def ThrobberConfig.default : ThrobberConfig :=
  ⟨["|", "/", "-", "\\"],
   some [.green, .yellow, .magenta, .cyan, .blue, .red, .white, .darkGrey],
   150⟩

/-- `ThrobberConfig::no_colors()`. -/
def ThrobberConfig.no_colors : ThrobberConfig :=
  ⟨["|", "/", "-", "\\"], none, 150⟩

/-- `ThrobberState { frame_index, color_index, running, message }`. -/
structure ThrobberState where
  frame_index : ℕ
  color_index : ℕ
  running : Bool
  message : String
  deriving DecidableEq

/-- The state installed by `Throbber::with_config` (also `new`, `new_plain`);
both background tasks are spawned immediately on this state, with
`running = false` and message `"Throbbing..."`. -/
def Throbber.with_config_state : ThrobberState := ⟨0, 0, false, "Throbbing..."⟩

/-- `Throbber::start()`: when not running, set `running = true` and reset
`frame_index` and `color_index` to 0; otherwise do nothing.  `start` issues
no signal. -/
def Throbber.start (s : ThrobberState) : ThrobberState :=
  if s.running then s
  else { s with running := true, frame_index := 0, color_index := 0 }

/-- `Throbber::set_message(msg)`. -/
def Throbber.set_message (s : ThrobberState) (msg : String) : ThrobberState :=
  { s with message := msg }

/-- `Throbber::stop_success(msg)`: write the final line
(`"✓ " ++ msg` in green) directly, set `running = false`, then `println!`.
Result: `(state, commands written)`. -/
def Throbber.stop_success (s : ThrobberState) (msg : String) :
    ThrobberState × List TermCmd :=
  ({ s with running := false },
   [.moveToColumn0, .clearLine, .setForegroundColor .green,
    .print ("✓ " ++ msg), .resetColor, .newline])

/-- `Throbber::stop_err(msg)`: as `stop_success` with `"✗ " ++ msg` in red. -/
def Throbber.stop_err (s : ThrobberState) (msg : String) :
    ThrobberState × List TermCmd :=
  ({ s with running := false },
   [.moveToColumn0, .clearLine, .setForegroundColor .red,
    .print ("✗ " ++ msg), .resetColor, .newline])

/-- One tick of the `Throbber::spawn_animate_task` loop (after the
`frame_delay` sleep): if not running, break without mutating or signaling;
otherwise `frame_index = (frame_index + 1) % frames.len()` — `none` models
the remainder-by-zero panic when `frames` is empty — and advance
`color_index` when a non-empty palette is configured, then signal.
Result: `some (state, loop exited, signaled)`. -/
def Throbber.animate_tick (config : ThrobberConfig) (s : ThrobberState) :
    Option (ThrobberState × Bool × Bool) :=
  if s.running = false then some (s, true, false)
  else if config.frames.length = 0 then none
  else
    let s1 := { s with frame_index := (s.frame_index + 1) % config.frames.length }
    let s2 :=
      match config.colors with
      | some colors =>
          if colors.isEmpty then s1
          else { s1 with color_index := (s1.color_index + 1) % colors.length }
      | none => s1
    some (s2, false, true)

/-- The state after `k` animation ticks. -/
def Throbber.animate_ticks (config : ThrobberConfig) :
    ℕ → ThrobberState → Option ThrobberState
  | 0, s => some s
  | k + 1, s =>
      (Throbber.animate_tick config s).bind fun r =>
        Throbber.animate_ticks config k r.1

/-- `Throbber::draw_frame`: look up `frames[frame_index]` (`none` models the
out-of-bounds panic), format `"<frame> <message>"`, and emit it, wrapped in
the palette color at `color_index` (`White` when out of range) when colors
are configured. -/
def Throbber.draw_frame (config : ThrobberConfig) (s : ThrobberState) :
    Option (List TermCmd) :=
  if h : s.frame_index < config.frames.length then
    let frame := config.frames.get ⟨s.frame_index, h⟩
    let display := frame ++ " " ++ s.message
    some
      (match config.colors with
       | some colors =>
           [.moveToColumn0, .clearLine,
            .setForegroundColor (colors.getD s.color_index .white),
            .print display, .resetColor]
       | none => [.moveToColumn0, .clearLine, .print display])
  else none

/-- One wake of the Throbber redraw task (`Throbber::spawn_draw_task` loop
body): if not running, clear the line and break (no frame, no newline);
otherwise draw the current frame.  Result:
`some (state, commands, loop exited)`. -/
def Throbber.draw_wake (config : ThrobberConfig) (s : ThrobberState) :
    Option (ThrobberState × List TermCmd × Bool) :=
  if s.running = false then some (s, [.moveToColumn0, .clearLine], true)
  else (Throbber.draw_frame config s).map fun cmds => (s, cmds, false)

/-- `inc` is a no-op on a finished bar, so a whole sequence of `inc` calls
leaves a finished state unchanged. -/
theorem incs_of_finished (ds : List ℕ) : ∀ s : BarState, s.finished = true →
    Bar.incs s ds = s := by
  induction ds with
  | nil => intro s _; rfl
  | cons d rest ih =>
      intro s h
      have h1 : Bar.inc s d = s := by simp [Bar.inc, h]
      calc Bar.incs s (d :: rest) = Bar.incs (Bar.inc s d) rest := rfl
        _ = Bar.incs s rest := by rw [h1]
        _ = s := ih s h

/-- Folding `inc` over a delta sequence whose running sums stay within
`total`: the final `current` is the initial `current` plus the sum, and
`finished` holds exactly when at least one call ran and the sum reached
`total`. -/
theorem incs_det (ds : List ℕ) : ∀ (c t : ℕ) (msg : String) (ci : ℕ),
    c + ds.sum ≤ t → t < 2 ^ 64 →
    (Bar.incs ⟨.determinate c t, false, msg, ci⟩ ds).current = c + ds.sum
    ∧ (Bar.incs ⟨.determinate c t, false, msg, ci⟩ ds).finished
        = decide (ds ≠ [] ∧ c + ds.sum = t) := by
  induction ds with
  | nil =>
      intro c t msg ci hsum ht
      exact ⟨by simp [Bar.incs, BarState.current], by simp [Bar.incs]⟩
  | cons d rest ih =>
      intro c t msg ci hsum ht
      rw [List.sum_cons] at hsum
      have hd : c + d ≤ t := by omega
      have hinc : Bar.inc ⟨.determinate c t, false, msg, ci⟩ d
          = ⟨.determinate (c + d) t, decide (c + d = t),
             if msg = "" then canned_message (c + d) t else msg, ci⟩ := by
        have hmin : min ((c + d) % 2 ^ 64) t = c + d := by
          rw [Nat.mod_eq_of_lt (by omega)]; exact min_eq_left hd
        simp only [Bar.inc, hmin, Bool.false_eq_true, if_false]
      have hstep : Bar.incs ⟨.determinate c t, false, msg, ci⟩ (d :: rest)
          = Bar.incs (Bar.inc ⟨.determinate c t, false, msg, ci⟩ d) rest := rfl
      by_cases heq : c + d = t
      · have hrest : rest.sum = 0 := by omega
        have hfin : Bar.incs ⟨.determinate c t, false, msg, ci⟩ (d :: rest)
            = ⟨.determinate (c + d) t, decide (c + d = t),
               if msg = "" then canned_message (c + d) t else msg, ci⟩ := by
          rw [hstep, hinc]
          exact incs_of_finished rest _ (by simp [heq])
        rw [hfin]
        constructor
        · simp [BarState.current, List.sum_cons, hrest]
        · simp [List.sum_cons, hrest, heq]
      · rw [hstep, hinc]
        have hdec : decide (c + d = t) = false := by simp [heq]
        rw [hdec]
        obtain ⟨ih1, ih2⟩ := ih (c + d) t
          (if msg = "" then canned_message (c + d) t else msg) ci (by omega) ht
        constructor
        · rw [ih1, List.sum_cons]; omega
        · rw [ih2, decide_eq_decide]
          constructor
          · rintro ⟨-, hsum'⟩
            exact ⟨by simp, by rw [List.sum_cons]; omega⟩
          · rintro ⟨-, hsum'⟩
            rw [List.sum_cons] at hsum'
            rcases rest with - | ⟨r, rs⟩
            · exact absurd (by simpa using hsum') heq
            · exact ⟨by simp, by omega⟩

/-- Claim C3, counterexample: from `Bar::new(4)`, three `inc(1)` calls leave
the message at `"Quarter done"` — not `"Almost there..."` as the claim
states — because the canned-message logic only fires while the message is
empty, and the first `inc` already set it.  Likewise the fourth `inc` leaves
the message at `"Quarter done"`, not `"Complete!"`. -/
theorem bar_inc_example_cx :
    (Bar.incs (Bar.with_config_state 4) [1, 1, 1]).message = "Quarter done"
    ∧ (Bar.incs (Bar.with_config_state 4) [1, 1, 1]).message ≠ "Almost there..."
    ∧ (Bar.incs (Bar.with_config_state 4) [1, 1, 1, 1]).message ≠ "Complete!" := by
  decide

/-- Claim C3, amended: from `Bar::new(4)`, three `inc(1)` calls yield
`current = 3`, `total = 4`, not finished, and message `"Quarter done"` (set
by the first call when progress reached 0.25 and frozen thereafter, the
message no longer being empty); one further `inc(1)` yields `current = 4`,
`finished = true`, and the message still `"Quarter done"`. -/
theorem bar_inc_example_behavior :
    Bar.incs (Bar.with_config_state 4) [1, 1, 1]
      = ⟨.determinate 3 4, false, "Quarter done", 0⟩
    ∧ Bar.incs (Bar.with_config_state 4) [1, 1, 1, 1]
      = ⟨.determinate 4 4, true, "Quarter done", 0⟩ := by
  decide

/-- Claim C4, counterexample: for `total = 0` and the empty call sequence —
both explicitly included by the claim — `current = total = 0` holds while
`finished` is still `false`, so `current == total ↔ finished` fails. -/
theorem bar_inc_fold_iff_cx :
    List.sum ([] : List ℕ) ≤ 0
    ∧ (Bar.incs (Bar.with_config_state 0) []).current
        = (Bar.incs (Bar.with_config_state 0) []).total
    ∧ (Bar.incs (Bar.with_config_state 0) []).finished = false := by
  decide

/-- Claim C4, amended: for every determinate bar `with_config_state total`
(`total` within the `u64` range) and every `inc` sequence with
`sum ≤ total`, the final `current` equals `min(sum, total)`; and
`current == total ↔ finished` holds whenever `total > 0` or at least one
`inc` call was made — in the remaining degenerate case (`total = 0`, empty
sequence) `current = total = 0` with `finished = false`. -/
theorem bar_inc_fold_final (t : ℕ) (ds : List ℕ)
    (h1 : t < 2 ^ 64) (h2 : ds.sum ≤ t) :
    (Bar.incs (Bar.with_config_state t) ds).current = min ds.sum t
    ∧ ((0 < t ∨ ds ≠ []) →
        ((Bar.incs (Bar.with_config_state t) ds).current = t
          ↔ (Bar.incs (Bar.with_config_state t) ds).finished = true)) := by
  have hws : Bar.with_config_state t = ⟨.determinate 0 t, false, "", 0⟩ := rfl
  obtain ⟨hc, hf⟩ := incs_det ds 0 t "" 0 (by omega) h1
  have hcur : (Bar.incs (Bar.with_config_state t) ds).current = ds.sum := by
    rw [hws, hc]; omega
  constructor
  · rw [hcur, Nat.min_eq_left h2]
  · intro hor
    rw [hcur, hws, hf, decide_eq_true_eq]
    constructor
    · intro hsum
      refine ⟨?_, by omega⟩
      rcases hor with hpos | hne
      · rintro rfl
        simp only [List.sum_nil] at hsum
        omega
      · exact hne
    · rintro ⟨-, hsum⟩
      omega

/-- Claim C4, witness: `total = 4` and four `inc(1)` calls reach
`current = 4 = min(4, 4)`, and the `current == total ↔ finished`
equivalence holds. -/
theorem bar_inc_fold_final_witness :
    (4 : ℕ) < 2 ^ 64
    ∧ List.sum [1, 1, 1, 1] ≤ 4
    ∧ ((Bar.incs (Bar.with_config_state 4) [1, 1, 1, 1]).current
          = min (List.sum [1, 1, 1, 1]) 4
       ∧ ((0 < 4 ∨ ([1, 1, 1, 1] : List ℕ) ≠ []) →
          ((Bar.incs (Bar.with_config_state 4) [1, 1, 1, 1]).current = 4
            ↔ (Bar.incs (Bar.with_config_state 4) [1, 1, 1, 1]).finished = true))) :=
  ⟨by decide, by decide, bar_inc_fold_final 4 [1, 1, 1, 1] (by decide) (by decide)⟩

/-- Claim C9, counterexample: in the reachable, non-finished state
`current = 2^64 - 2`, `total = 2^64 - 1`, the call `inc(3)` wraps the `u64`
addition (`current + delta ≡ 1 (mod 2^64)`) before the clamp, so `current`
becomes `1`, not the exact-integer `min(current + delta, total) = 2^64 - 1`
the claim promises. -/
theorem bar_inc_overflow_cx :
    (Bar.inc ⟨.determinate (2 ^ 64 - 2) (2 ^ 64 - 1), false, "m", 0⟩ 3).current = 1
    ∧ min (2 ^ 64 - 2 + 3) (2 ^ 64 - 1) = 2 ^ 64 - 1
    ∧ (1 : ℕ) ≠ 2 ^ 64 - 1 := by
  decide

/-- Claim C9, amended: for every non-finished determinate state and every
delta with `current + delta ≤ u64::MAX` (no overflow), `inc(delta)` sets
`current` to the exact `min(current + delta, total)`, and the clamp keeps
`current ≤ total` without any error; when `current + delta` exceeds the
`u64` maximum the addition wraps (release builds) before the clamp and the
exactness part of the claim fails. -/
theorem bar_inc_exact_below_max (c t d : ℕ) (msg : String) (ci : ℕ)
    (h : c + d < 2 ^ 64) :
    (Bar.inc ⟨.determinate c t, false, msg, ci⟩ d).current = min (c + d) t
    ∧ (Bar.inc ⟨.determinate c t, false, msg, ci⟩ d).current ≤ t := by
  have hmod : (c + d) % 2 ^ 64 = c + d := Nat.mod_eq_of_lt h
  have hcur : (Bar.inc ⟨.determinate c t, false, msg, ci⟩ d).current
      = min (c + d) t := by
    simp only [Bar.inc, Bool.false_eq_true, if_false, hmod, BarState.current]
  exact ⟨hcur, by rw [hcur]; exact min_le_right _ _⟩

/-- Claim C9, witness: `inc(10)` from `current = 5`, `total = 12` yields
`min(15, 12) = 12 ≤ 12`. -/
theorem bar_inc_exact_below_max_witness :
    (5 : ℕ) + 10 < 2 ^ 64
    ∧ ((Bar.inc ⟨.determinate 5 12, false, "", 0⟩ 10).current = min (5 + 10) 12
       ∧ (Bar.inc ⟨.determinate 5 12, false, "", 0⟩ 10).current ≤ 12) :=
  ⟨by decide, bar_inc_exact_below_max 5 12 10 "" 0 (by decide)⟩

/-- Claim C1, counterexample: on a freshly constructed Throbber
(`running = false`, no `start()` yet), the very first Animation Process tick
observes `running = false` and exits its loop (`exited = true` in the
result below) — the Animation Process does not keep running until `start()`
is called, contradicting the claim that neither process terminates before
`start()`. -/
theorem throbber_prestart_anim_exit_cx :
    Throbber.animate_tick ThrobberConfig.default Throbber.with_config_state
      = some (Throbber.with_config_state, true, false) := by
  decide

/-- Claim C1, amended: both processes are spawned on the constructed state
with `running = false`, and neither mutates state or signals before
`start()`; but rather than idling, each terminates on its first wake that
observes `running = false` — the Animation Process on its first timer tick,
the Redraw Process on its first (signal-driven) wake, after clearing the
line. -/
theorem throbber_prestart_behavior (config : ThrobberConfig)
    (s : ThrobberState) (h : s.running = false) :
    Throbber.with_config_state.running = false
    ∧ Throbber.animate_tick config s = some (s, true, false)
    ∧ Throbber.draw_wake config s
        = some (s, [.moveToColumn0, .clearLine], true) := by
  refine ⟨rfl, ?_, ?_⟩ <;> simp [Throbber.animate_tick, Throbber.draw_wake, h]

/-- Claim C1, witness: the amended statement evaluated on the default
configuration and the freshly constructed state. -/
theorem throbber_prestart_behavior_witness :
    Throbber.with_config_state.running = false
    ∧ (Throbber.with_config_state.running = false
       ∧ Throbber.animate_tick ThrobberConfig.default Throbber.with_config_state
           = some (Throbber.with_config_state, true, false)
       ∧ Throbber.draw_wake ThrobberConfig.default Throbber.with_config_state
           = some (Throbber.with_config_state, [.moveToColumn0, .clearLine], true)) :=
  ⟨by decide,
   throbber_prestart_behavior ThrobberConfig.default Throbber.with_config_state
     (by decide)⟩

/-- Claim C2: `stop_success(msg)` / `stop_err(msg)` write their final line
(one `print` carrying the check/cross glyph and the message, plus the
trailing newline) and set `running = false`; from the resulting state the
next Animation Process tick observes `running = false`, performs no state
mutation and no signal, and exits, and the Redraw Process terminates on its
next wake. -/
theorem throbber_stop_self_terminate (config : ThrobberConfig)
    (s : ThrobberState) (msg : String) :
    (Throbber.stop_success s msg).1.running = false
    ∧ TermCmd.print ("✓ " ++ msg) ∈ (Throbber.stop_success s msg).2
    ∧ TermCmd.newline ∈ (Throbber.stop_success s msg).2
    ∧ Throbber.animate_tick config (Throbber.stop_success s msg).1
        = some ((Throbber.stop_success s msg).1, true, false)
    ∧ Throbber.draw_wake config (Throbber.stop_success s msg).1
        = some ((Throbber.stop_success s msg).1, [.moveToColumn0, .clearLine], true)
    ∧ (Throbber.stop_err s msg).1.running = false
    ∧ TermCmd.print ("✗ " ++ msg) ∈ (Throbber.stop_err s msg).2
    ∧ TermCmd.newline ∈ (Throbber.stop_err s msg).2
    ∧ Throbber.animate_tick config (Throbber.stop_err s msg).1
        = some ((Throbber.stop_err s msg).1, true, false)
    ∧ Throbber.draw_wake config (Throbber.stop_err s msg).1
        = some ((Throbber.stop_err s msg).1, [.moveToColumn0, .clearLine], true) := by
  simp [Throbber.stop_success, Throbber.stop_err, Throbber.animate_tick,
    Throbber.draw_wake]

/-- Claim C6, counterexample: a Throbber Redraw Process wake that observes
`running = false` emits only move-to-column-0 and clear-line and exits: the
emitted command list contains no `print` (no last frame is rendered) and no
newline, contradicting the claim for the Throbber.  (The trailing newline
the user sees comes from `stop_success`/`stop_err` directly.) -/
theorem throbber_draw_final_cx :
    Throbber.draw_wake ThrobberConfig.default ⟨2, 3, false, "m"⟩
      = some (⟨2, 3, false, "m"⟩, [.moveToColumn0, .clearLine], true)
    ∧ TermCmd.newline ∉ [TermCmd.moveToColumn0, TermCmd.clearLine]
    ∧ List.filter
        (fun c => match c with | TermCmd.print _ => true | _ => false)
        [TermCmd.moveToColumn0, TermCmd.clearLine] = [] := by
  decide

/-- Claim C6, amended: the Bar Redraw Process, on the wake observing
`finished`, renders one last frame (a `print` of the display string is
among the emitted commands), emits a trailing newline, and terminates; the
Throbber Redraw Process, on the wake observing `running = false`, clears
the line and terminates without rendering a frame or emitting a newline. -/
theorem draw_final_wake :
    (∀ (config : BarConfig) (s : BarState), s.finished = true →
        Bar.draw_wake config s = (s, Bar.draw_bar config s ++ [.newline], true)
        ∧ TermCmd.newline ∈ Bar.draw_bar config s ++ [TermCmd.newline]
        ∧ TermCmd.print (Bar.bar_display config s) ∈ Bar.draw_bar config s)
    ∧ (∀ (config : ThrobberConfig) (s : ThrobberState), s.running = false →
        Throbber.draw_wake config s
          = some (s, [.moveToColumn0, .clearLine], true)) := by
  constructor
  · intro config s hf
    refine ⟨by simp [Bar.draw_wake, hf], by simp, ?_⟩
    rcases hc : config.colors with - | colors <;> simp [Bar.draw_bar, hc]
  · intro config s hr
    simp [Throbber.draw_wake, hr]

/-- Claim C6, witness: the amended statement evaluated on the default Bar
configuration at a finished state and on the default Throbber
configuration at a stopped state. -/
theorem draw_final_wake_witness :
    (⟨.determinate 4 4, true, "m", 0⟩ : BarState).finished = true
    ∧ (Bar.draw_wake BarConfig.default ⟨.determinate 4 4, true, "m", 0⟩
        = (⟨.determinate 4 4, true, "m", 0⟩,
           Bar.draw_bar BarConfig.default ⟨.determinate 4 4, true, "m", 0⟩
             ++ [.newline], true)
       ∧ TermCmd.newline ∈ Bar.draw_bar BarConfig.default
           ⟨.determinate 4 4, true, "m", 0⟩ ++ [TermCmd.newline]
       ∧ TermCmd.print
           (Bar.bar_display BarConfig.default ⟨.determinate 4 4, true, "m", 0⟩)
           ∈ Bar.draw_bar BarConfig.default ⟨.determinate 4 4, true, "m", 0⟩)
    ∧ Throbber.draw_wake ThrobberConfig.default ⟨0, 0, false, "m"⟩
        = some (⟨0, 0, false, "m"⟩, [.moveToColumn0, .clearLine], true) :=
  ⟨by decide,
   draw_final_wake.1 BarConfig.default ⟨.determinate 4 4, true, "m", 0⟩ (by decide),
   draw_final_wake.2 ThrobberConfig.default ⟨0, 0, false, "m"⟩ (by decide)⟩

/-- A running animation tick with non-empty frames succeeds: the frame index
advances modulo the frame count, `running` and the message are untouched,
and the color index advances only when a non-empty palette is configured. -/
theorem animate_tick_running (config : ThrobberConfig) (s : ThrobberState)
    (hr : s.running = true) (hlen : 0 < config.frames.length) :
    ∃ ci : ℕ,
      Throbber.animate_tick config s
        = some (⟨(s.frame_index + 1) % config.frames.length, ci,
                 s.running, s.message⟩, false, true)
      ∧ (config.colors = none ∨ config.colors = some [] → ci = s.color_index) := by
  have hlen' : ¬ config.frames.length = 0 := by omega
  rcases hc : config.colors with - | colors
  · refine ⟨s.color_index, ?_, fun _ => rfl⟩
    simp [Throbber.animate_tick, hr, hlen', hc]
  · by_cases hce : colors.isEmpty
    · refine ⟨s.color_index, ?_, fun _ => rfl⟩
      simp [Throbber.animate_tick, hr, hlen', hc, hce]
    · refine ⟨(s.color_index + 1) % colors.length, ?_, ?_⟩
      · simp [Throbber.animate_tick, hr, hlen', hc, hce]
      · rintro (h | h)
        · simp at h
        · injection h with h'
          subst h'
          simp at hce

/-- After `k` running animation ticks from a state whose frame index is in
range, the frame index has advanced by `k` modulo the frame count. -/
theorem animate_ticks_frame (config : ThrobberConfig)
    (hlen : 0 < config.frames.length) :
    ∀ (k : ℕ) (s : ThrobberState), s.running = true →
      s.frame_index < config.frames.length →
      ∃ s', Throbber.animate_ticks config k s = some s'
        ∧ s'.running = true
        ∧ s'.frame_index = (s.frame_index + k) % config.frames.length := by
  intro k
  induction k with
  | zero =>
      intro s hr hf
      exact ⟨s, rfl, hr, by rw [Nat.add_zero, Nat.mod_eq_of_lt hf]⟩
  | succ k ih =>
      intro s hr hf
      obtain ⟨ci, htick, -⟩ := animate_tick_running config s hr hlen
      obtain ⟨s', h1, h2, h3⟩ :=
        ih ⟨(s.frame_index + 1) % config.frames.length, ci, s.running, s.message⟩
          hr (Nat.mod_lt _ hlen)
      refine ⟨s', ?_, h2, ?_⟩
      · rw [Throbber.animate_ticks, htick]
        exact h1
      · rw [h3]
        simp only [Nat.mod_add_mod]
        congr 1
        omega

/-- Claim C8: `start()` is an idempotent no-op on a running Throbber; on a
non-running one it sets `running = true` and resets `frame_index` and
`color_index` to 0; and after `k` Animation Process ticks following such a
start, `frame_index = k mod frame_count` — the frame index cycles through
all frames with period `frame_count`. -/
theorem throbber_frame_cycle :
    (∀ s : ThrobberState, s.running = true → Throbber.start s = s)
    ∧ (∀ s : ThrobberState, s.running = false →
        Throbber.start s
          = { s with running := true, frame_index := 0, color_index := 0 })
    ∧ (∀ (config : ThrobberConfig) (s : ThrobberState) (k : ℕ),
        s.running = false → 0 < config.frames.length →
        ∃ s', Throbber.animate_ticks config k (Throbber.start s) = some s'
          ∧ s'.running = true
          ∧ s'.frame_index = k % config.frames.length) := by
  refine ⟨fun s hr => by simp [Throbber.start, hr],
          fun s hr => by simp [Throbber.start, hr], ?_⟩
  intro config s k hr hlen
  have hstart : Throbber.start s
      = { s with running := true, frame_index := 0, color_index := 0 } := by
    simp [Throbber.start, hr]
  obtain ⟨s', h1, h2, h3⟩ := animate_ticks_frame config hlen k (Throbber.start s)
    (by rw [hstart]) (by rw [hstart]; exact hlen)
  refine ⟨s', h1, h2, ?_⟩
  rw [h3, hstart]
  simp

/-- Claim C8, witness: six ticks of the default four-frame Throbber from a
fresh `start()` land on frame index `6 mod 4 = 2`. -/
theorem throbber_frame_cycle_witness :
    Throbber.with_config_state.running = false
    ∧ 0 < ThrobberConfig.default.frames.length
    ∧ (∃ s', Throbber.animate_ticks ThrobberConfig.default 6
          (Throbber.start Throbber.with_config_state) = some s'
        ∧ s'.running = true
        ∧ s'.frame_index = 6 % ThrobberConfig.default.frames.length) :=
  ⟨by decide, by decide,
   throbber_frame_cycle.2.2 ThrobberConfig.default Throbber.with_config_state 6
     (by decide) (by decide)⟩

/-- Claim C10: with a non-empty frame sequence the Animation Process frame
advance and `draw_frame`'s lookup are total (the advance keeps the index in
bounds, the lookup succeeds on every in-bounds index); but `with_config`
accepts an empty frame sequence, for which the first animation tick after
`start()` takes a remainder by zero and `draw_frame` indexes out of bounds
(both modelled as `none`: the error branch is reachable); the colors
palette, by contrast, is guarded by an explicit emptiness check, so an
absent or empty palette leaves `color_index` unchanged without error. -/
theorem throbber_frames_partiality :
    (∀ (config : ThrobberConfig) (s : ThrobberState),
        config.frames ≠ [] → s.running = true →
        ∃ s', Throbber.animate_tick config s = some (s', false, true)
          ∧ s'.frame_index < config.frames.length)
    ∧ (∀ (config : ThrobberConfig) (s : ThrobberState),
        s.frame_index < config.frames.length →
        ∃ cmds, Throbber.draw_frame config s = some cmds)
    ∧ Throbber.animate_tick ⟨[], none, 150⟩
        (Throbber.start Throbber.with_config_state) = none
    ∧ Throbber.draw_frame ⟨[], none, 150⟩
        (Throbber.start Throbber.with_config_state) = none
    ∧ (∀ (config : ThrobberConfig) (s : ThrobberState),
        s.running = true → config.frames ≠ [] →
        (config.colors = none ∨ config.colors = some []) →
        ∃ s', Throbber.animate_tick config s = some (s', false, true)
          ∧ s'.color_index = s.color_index) := by
  refine ⟨?_, ?_, by decide, by decide, ?_⟩
  · intro config s hf hr
    have hlen : 0 < config.frames.length := List.length_pos.mpr hf
    obtain ⟨ci, htick, -⟩ := animate_tick_running config s hr hlen
    exact ⟨_, htick, Nat.mod_lt _ hlen⟩
  · intro config s h
    unfold Throbber.draw_frame
    rw [dif_pos h]
    exact ⟨_, rfl⟩
  · intro config s hr hf hcol
    have hlen : 0 < config.frames.length := List.length_pos.mpr hf
    obtain ⟨ci, htick, hci⟩ := animate_tick_running config s hr hlen
    exact ⟨_, htick, hci hcol⟩

/-- Claim C10, witness: the totality part evaluated on the default
configuration at a started state, and on a frame index in range. -/
theorem throbber_frames_partiality_witness :
    ThrobberConfig.default.frames ≠ []
    ∧ (Throbber.start Throbber.with_config_state).running = true
    ∧ (∃ s', Throbber.animate_tick ThrobberConfig.default
          (Throbber.start Throbber.with_config_state) = some (s', false, true)
        ∧ s'.frame_index < ThrobberConfig.default.frames.length)
    ∧ (⟨2, 0, true, "m"⟩ : ThrobberState).frame_index
        < ThrobberConfig.default.frames.length
    ∧ (∃ cmds, Throbber.draw_frame ThrobberConfig.default ⟨2, 0, true, "m"⟩
        = some cmds) :=
  ⟨by decide, by decide,
   throbber_frames_partiality.1 ThrobberConfig.default
     (Throbber.start Throbber.with_config_state) (by decide) (by decide),
   by decide,
   throbber_frames_partiality.2.1 ThrobberConfig.default ⟨2, 0, true, "m"⟩
     (by decide)⟩

/-- Any single bounce tick re-establishes the position bound and keeps the
direction in `{1, -1}`; for a positive track it also never produces the
unreachable pair `(position = 0, direction = -1)`. -/
theorem bounce_tick_inv (width p : ℕ) (d : ℤ) (hd : d = 1 ∨ d = -1) :
    (Bar.bounce_tick width p d).1 ≤ width - width / 4
    ∧ ((Bar.bounce_tick width p d).2 = 1 ∨ (Bar.bounce_tick width p d).2 = -1)
    ∧ (1 ≤ width - width / 4 →
        ¬((Bar.bounce_tick width p d).1 = 0 ∧ (Bar.bounce_tick width p d).2 = -1)) := by
  simp only [Bar.bounce_tick]
  split_ifs with h1 h2
  · exact ⟨le_refl _, Or.inr rfl, fun hw h => absurd h.1 (by omega)⟩
  · exact ⟨Nat.zero_le _, Or.inl rfl, fun _ h => absurd h.2 (by decide)⟩
  · exact ⟨by omega, hd, fun _ h => h2 h.1⟩

/-- Every state the indeterminate animation task can reach satisfies the
bounce invariant. -/
theorem bounce_reachable_inv (width : ℕ) (pd : ℕ × ℤ)
    (h : Bar.BounceReachable width pd) :
    pd.1 ≤ width - width / 4
    ∧ (pd.2 = 1 ∨ pd.2 = -1)
    ∧ (1 ≤ width - width / 4 → ¬(pd.1 = 0 ∧ pd.2 = -1)) := by
  induction h with
  | init =>
      exact ⟨Nat.zero_le _, Or.inl rfl, fun _ h => absurd h.2 (by decide)⟩
  | step p d hr ih => exact bounce_tick_inv width p d ih.2.1

/-- The `usize → i32` cast is the identity below `2^31`. -/
theorem i32_of_usize_eq (p : ℕ) (h : p < 2 ^ 31) : i32_of_usize p = p := by
  unfold i32_of_usize
  have h32 : p % 2 ^ 32 = p := Nat.mod_eq_of_lt (by omega)
  rw [h32, if_pos (by exact_mod_cast h)]

/-- Wrapping `i32` arithmetic is the identity inside the `i32` range. -/
theorem i32_wrap_eq (x : ℤ) (h1 : -(2 ^ 31) ≤ x) (h2 : x < 2 ^ 31) :
    i32_wrap x = x := by
  unfold i32_wrap
  rw [Int.emod_eq_of_lt (by omega) (by omega)]
  ring

/-- The `i32 → usize` cast is `toNat` on nonnegative values below `2^64`. -/
theorem usize_of_i32_eq (x : ℤ) (h1 : 0 ≤ x) (h2 : x < 2 ^ 64) :
    usize_of_i32 x = x.toNat := by
  unfold usize_of_i32
  rw [Int.emod_eq_of_lt h1 h2]

/-- An upward bounce tick (direction 1, no cast truncation): move to
`p + 1`, clamping to the top boundary and turning around when it is
reached. -/
theorem bounce_tick_step_up (width p : ℕ) (hp : p + 1 < 2 ^ 31) :
    Bar.bounce_tick width p 1
      = if width - width / 4 ≤ p + 1 then (width - width / 4, -1)
        else (p + 1, 1) := by
  have e1 : i32_of_usize p = p := i32_of_usize_eq p (by omega)
  have e2 : i32_wrap ((p : ℤ) + 1) = (p : ℤ) + 1 :=
    i32_wrap_eq _ (by omega) (by omega)
  have e3 : usize_of_i32 ((p : ℤ) + 1) = p + 1 := by
    rw [usize_of_i32_eq _ (by omega) (by omega)]
    omega
  simp only [Bar.bounce_tick, e1, e2, e3]
  by_cases h : width - width / 4 ≤ p + 1
  · rw [if_pos h, if_pos h]
  · rw [if_neg h, if_neg h, if_neg (by omega)]

/-- A downward bounce tick (direction -1, position at least 1, inside the
track): move to `p - 1`, turning around exactly on reaching 0. -/
theorem bounce_tick_step_down (width p : ℕ) (hp1 : 1 ≤ p) (hp2 : p < 2 ^ 31)
    (hple : p ≤ width - width / 4) :
    Bar.bounce_tick width p (-1)
      = if p = 1 then (0, 1) else (p - 1, -1) := by
  have e1 : i32_of_usize p = p := i32_of_usize_eq p hp2
  have e2 : i32_wrap ((p : ℤ) + -1) = (p : ℤ) + -1 :=
    i32_wrap_eq _ (by omega) (by omega)
  have e3 : usize_of_i32 ((p : ℤ) + -1) = p - 1 := by
    rw [usize_of_i32_eq _ (by omega) (by omega)]
    omega
  simp only [Bar.bounce_tick, e1, e2, e3]
  rw [if_neg (by omega)]
  by_cases h : p = 1
  · rw [if_pos (by omega), if_pos h]
  · rw [if_neg (by omega), if_neg h]

/-- Claim C5: every determinate mutation (`inc`, `set_position`, `finish`)
re-establishes `current ≤ total`; every reachable indeterminate state
satisfies `0 ≤ position ≤ width - bounce_width` with
`bounce_width = width / 4` and a direction in `{1, -1}` (and, on a positive
track, position 0 only with direction 1); and on a reachable in-range state
the direction flips exactly at the two boundaries, with the position
clamped to the boundary rather than overshooting it. -/
theorem bar_invariants :
    (∀ (s : BarState) (d pos : ℕ), s.current ≤ s.total →
        (Bar.inc s d).current ≤ (Bar.inc s d).total
        ∧ (Bar.set_position s pos).current ≤ (Bar.set_position s pos).total
        ∧ (Bar.finish s).current ≤ (Bar.finish s).total)
    ∧ (∀ (width : ℕ) (pd : ℕ × ℤ), Bar.BounceReachable width pd →
        pd.1 ≤ width - width / 4
        ∧ (pd.2 = 1 ∨ pd.2 = -1)
        ∧ (1 ≤ width - width / 4 → ¬(pd.1 = 0 ∧ pd.2 = -1)))
    ∧ (∀ width p : ℕ, p + 1 < 2 ^ 31 → p ≤ width - width / 4 →
        (((Bar.bounce_tick width p 1).2 = -1 ↔ width - width / 4 ≤ p + 1)
         ∧ ((Bar.bounce_tick width p 1).2 = -1 →
             (Bar.bounce_tick width p 1).1 = width - width / 4)
         ∧ ((Bar.bounce_tick width p 1).2 = 1 →
             (Bar.bounce_tick width p 1).1 = p + 1))
        ∧ (1 ≤ p →
            ((Bar.bounce_tick width p (-1)).2 = 1 ↔ p = 1)
            ∧ ((Bar.bounce_tick width p (-1)).2 = 1 →
                (Bar.bounce_tick width p (-1)).1 = 0)
            ∧ ((Bar.bounce_tick width p (-1)).2 = -1 →
                (Bar.bounce_tick width p (-1)).1 = p - 1))) := by
  refine ⟨?_, bounce_reachable_inv, ?_⟩
  · intro s d pos h
    rcases s with ⟨mode, fin, msg, ci⟩
    rcases mode with ⟨c, t⟩ | ⟨p, dir⟩
    · cases fin
      · refine ⟨?_, ?_, ?_⟩ <;>
          simp [Bar.inc, Bar.set_position, Bar.finish,
            BarState.current, BarState.total]
      · simp only [BarState.current, BarState.total] at h
        refine ⟨?_, ?_, ?_⟩ <;>
          simp [Bar.inc, Bar.set_position, Bar.finish,
            BarState.current, BarState.total, h]
    · cases fin <;>
        refine ⟨?_, ?_, ?_⟩ <;>
          simp [Bar.inc, Bar.set_position, Bar.finish,
            BarState.current, BarState.total]
  · intro width p hp hple
    constructor
    · rw [bounce_tick_step_up width p hp]
      by_cases h : width - width / 4 ≤ p + 1
      · rw [if_pos h]
        exact ⟨by simp [h], fun _ => rfl, fun h1 => by simp at h1⟩
      · rw [if_neg h]
        exact ⟨by simp [h], fun h1 => by simp at h1, fun _ => rfl⟩
    · intro hp1
      rw [bounce_tick_step_down width p hp1 (by omega) hple]
      by_cases h : p = 1
      · rw [if_pos h]
        exact ⟨by simp [h], fun _ => rfl, fun h1 => by simp at h1⟩
      · rw [if_neg h]
        exact ⟨by simp [h], fun h1 => by simp at h1, fun _ => rfl⟩

/-- Claim C5, witness: the determinate part evaluated at
`current = 2 ≤ total = 5`; the reachable-state invariant at the initial
bounce state of an 8-wide track; the flip characterization at position 5,
one step below the top boundary `8 - 8/4 = 6`. -/
theorem bar_invariants_witness :
    (⟨.determinate 2 5, false, "", 0⟩ : BarState).current
      ≤ (⟨.determinate 2 5, false, "", 0⟩ : BarState).total
    ∧ ((Bar.inc ⟨.determinate 2 5, false, "", 0⟩ 10).current
          ≤ (Bar.inc ⟨.determinate 2 5, false, "", 0⟩ 10).total
       ∧ (Bar.set_position ⟨.determinate 2 5, false, "", 0⟩ 7).current
          ≤ (Bar.set_position ⟨.determinate 2 5, false, "", 0⟩ 7).total
       ∧ (Bar.finish ⟨.determinate 2 5, false, "", 0⟩).current
          ≤ (Bar.finish ⟨.determinate 2 5, false, "", 0⟩).total)
    ∧ ((0, 1) : ℕ × ℤ).1 ≤ 8 - 8 / 4
    ∧ ((Bar.bounce_tick 8 5 1).2 = -1 ↔ 8 - 8 / 4 ≤ 5 + 1) :=
  ⟨by decide,
   bar_invariants.1 ⟨.determinate 2 5, false, "", 0⟩ 10 7 (by decide),
   (bar_invariants.2.1 8 (0, 1) Bar.BounceReachable.init).1,
   ((bar_invariants.2.2 8 5 (by decide) (by decide)).1).1⟩

set_option maxRecDepth 40000 in
/-- Claim C7, counterexample: the claim's exact-arithmetic rule is false of
the program.  At the reachable state `current = 3152519739159347`,
`total = 2^55` (reachable from `Bar::with_config(2^55, ..)` via
`set_position`), with the default width 40: `current/total` is exact in
`f64` (a 52-bit numerator over a power of two), but `progress * 40.0` has
exact value `3.5 - 2^-52`, an exact tie of the 53-bit significand that
round-to-nearest-even resolves *up* to 3.5, and `round()` (half away from
zero) then yields 4 filled cells — while the exact rule
`round(progress × width)` gives `round(3.5 - 2^-52) = 3`.  The rendered
string therefore differs from the specification's rule. -/
theorem bar_render_f64_cx :
    (Bar.set_position (Bar.with_config_state (2 ^ 55)) 3152519739159347).current
      = 3152519739159347
    ∧ Bar.filled_len_f64 3152519739159347 (2 ^ 55) 40 = 4
    ∧ round_mul (spec_progress_frac 3152519739159347 (2 ^ 55)).1
        (spec_progress_frac 3152519739159347 (2 ^ 55)).2 40 = 3
    ∧ Bar.bar_display BarConfig.default
        ⟨.determinate 3152519739159347 (2 ^ 55), false, "m", 0⟩
      ≠ spec_det_display BarConfig.default.width 3152519739159347 (2 ^ 55) "m" := by
  decide

/-- Claim C7, amended: the rendered determinate display string follows the
stated format `[<filled '='><rest ' '>] <percent>% <message>` with
`filled = round(progress × width)` and `percent = round(progress × 100)`
computed in `f64` (round-to-nearest-even per operation), `total == 0`
treated as `progress = 1.0`; it equals the exact-real-arithmetic reading of
the rule exactly at those states and widths where the `f64`-computed filled
count and percent agree with the exact-rule values (as they do at all
small/typical inputs, e.g. every `current/total = 3/4` bar), but not
universally — see the counterexample.  For `total = 0` the program takes
the guard branch (no division by zero): progress is exactly 1 and the
percent label is exactly 100. -/
theorem det_render_rule (config : BarConfig) (c t : ℕ) (f : Bool)
    (msg : String) (ci : ℕ)
    (hfill : Bar.filled_len_f64 c t config.width
      = round_mul (spec_progress_frac c t).1 (spec_progress_frac c t).2
          config.width)
    (hperc : Bar.percent_f64 c t
      = round_mul (spec_progress_frac c t).1 (spec_progress_frac c t).2 100) :
    Bar.bar_display config ⟨.determinate c t, f, msg, ci⟩
      = spec_det_display config.width c t msg
    ∧ Bar.progress_f64 c 0 = (1, 1)
    ∧ Bar.percent_f64 c 0 = 100 := by
  have h0 : Bar.progress_f64 c 0 = (1, 1) := by simp [Bar.progress_f64]
  refine ⟨?_, h0, ?_⟩
  · unfold Bar.bar_display spec_det_display
    dsimp only
    rw [hfill, hperc]
  · unfold Bar.percent_f64
    rw [h0]
    decide

set_option maxRecDepth 40000 in
/-- Claim C7, witness: at `current = 3`, `total = 4`, default width 40, the
`f64` pipeline and the exact rule agree (filled 30, percent 75), so the
rendered string equals the specification's rule there. -/
theorem det_render_rule_witness :
    Bar.filled_len_f64 3 4 BarConfig.default.width
      = round_mul (spec_progress_frac 3 4).1 (spec_progress_frac 3 4).2
          BarConfig.default.width
    ∧ Bar.percent_f64 3 4
      = round_mul (spec_progress_frac 3 4).1 (spec_progress_frac 3 4).2 100
    ∧ (Bar.bar_display BarConfig.default ⟨.determinate 3 4, false, "hi", 0⟩
        = spec_det_display BarConfig.default.width 3 4 "hi"
       ∧ Bar.progress_f64 3 0 = (1, 1)
       ∧ Bar.percent_f64 3 0 = 100) :=
  ⟨by decide, by decide,
   det_render_rule BarConfig.default 3 4 false "hi" 0 (by decide) (by decide)⟩
